import Mathlib

/-!
Shallow embedding of the news-agent pipeline in `src/main.py`:
the dedup cache (`filter_new`), the summarizer wrapper
(`analyze_with_ai`), the fetcher (`fetch_site`), the notifier
(`send_whatsapp`) and the orchestrator (`agent_loop`).

External effects (HTTP, the text-generation service, the messaging
service, wall-clock timestamps) are passed in as explicit oracles;
observable side effects (log lines, sleeps, cache persistence,
notification) are returned as explicit event traces.
-/

namespace NewsAgent

/-- A persisted cache record: `{"headline": item, "timestamp": str(datetime.now())}`.
The `headline` field actually stores summary text (naming reused across layers). -/
structure CacheEntry where
  headline : String
  timestamp : String
deriving DecidableEq, Repr

/--
Model of `filter_new(items, cache)` from `src/main.py` lines 77-84:

    new_items = []
    for item in items:
        if item not in [c["headline"] for c in cache]:
            new_items.append(item)
            cache.append({"headline": item, "timestamp": str(datetime.now())})
    return new_items, cache

`ts k` models the string `str(datetime.now())` observed at the k-th loop
iteration (timestamps are an external oracle; they are never compared).
Membership is Python `in` on the list of `headline` fields, i.e. string
equality.
-/
def filter_new (ts : Nat → String) : List String → List CacheEntry → Nat →
    List String × List CacheEntry
  | [], cache, _ => ([], cache)
  | item :: rest, cache, k =>
    if item ∈ cache.map (·.headline) then
      filter_new ts rest cache (k + 1)
    else
      let r := filter_new ts rest (cache ++ [⟨item, ts k⟩]) (k + 1)
      (item :: r.1, r.2)

/-- Headlines currently recorded in a cache. -/
def cacheHeadlines (cache : List CacheEntry) : List String :=
  cache.map (·.headline)

-- Basic structural lemmas about `filter_new`, shared by several claims.

theorem filter_new_nil (ts : Nat → String) (cache : List CacheEntry) (k : Nat) :
    filter_new ts [] cache k = ([], cache) := rfl

theorem filter_new_cons (ts : Nat → String) (item : String) (rest : List String)
    (cache : List CacheEntry) (k : Nat) :
    filter_new ts (item :: rest) cache k =
      if item ∈ cache.map (·.headline) then
        filter_new ts rest cache (k + 1)
      else
        ((item :: (filter_new ts rest (cache ++ [⟨item, ts k⟩]) (k + 1)).1),
          (filter_new ts rest (cache ++ [⟨item, ts k⟩]) (k + 1)).2) := rfl

theorem filter_new_cons_mem (ts : Nat → String) (item : String) (rest : List String)
    (cache : List CacheEntry) (k : Nat) (h : item ∈ cacheHeadlines cache) :
    filter_new ts (item :: rest) cache k = filter_new ts rest cache (k + 1) := by
  have h' : item ∈ List.map (fun c => c.headline) cache := h
  rw [filter_new_cons, if_pos h']

theorem filter_new_cons_new (ts : Nat → String) (item : String) (rest : List String)
    (cache : List CacheEntry) (k : Nat) (h : item ∉ cacheHeadlines cache) :
    filter_new ts (item :: rest) cache k =
      ((item :: (filter_new ts rest (cache ++ [⟨item, ts k⟩]) (k + 1)).1),
        (filter_new ts rest (cache ++ [⟨item, ts k⟩]) (k + 1)).2) := by
  have h' : item ∉ List.map (fun c => c.headline) cache := h
  rw [filter_new_cons, if_neg h']

/-- The updated cache extends the input cache; the appended tail's headlines
are exactly the returned `new_items`. -/
theorem filter_new_frame (ts : Nat → String) (items : List String)
    (cache : List CacheEntry) (k : Nat) :
    ∃ tail : List CacheEntry,
      (filter_new ts items cache k).2 = cache ++ tail ∧
      tail.map (·.headline) = (filter_new ts items cache k).1 := by
  induction items generalizing cache k with
  | nil => exact ⟨[], by simp [filter_new]⟩
  | cons item rest ih =>
    by_cases h : item ∈ cacheHeadlines cache
    · rw [filter_new_cons_mem ts item rest cache k h]
      exact ih cache (k + 1)
    · rw [filter_new_cons_new ts item rest cache k h]
      obtain ⟨tail, h1, h2⟩ := ih (cache ++ [⟨item, ts k⟩]) (k + 1)
      exact ⟨⟨item, ts k⟩ :: tail, by simpa using h1, by simpa using h2⟩

/-- The input cache's headlines survive into the updated cache. -/
theorem filter_new_cache_mono (ts : Nat → String) (items : List String)
    (cache : List CacheEntry) (k : Nat) :
    ∀ x ∈ cacheHeadlines cache, x ∈ cacheHeadlines (filter_new ts items cache k).2 := by
  intro x hx
  obtain ⟨tail, h1, _⟩ := filter_new_frame ts items cache k
  rw [h1]
  simp only [cacheHeadlines, List.map_append, List.mem_append]
  exact Or.inl (by simpa [cacheHeadlines] using hx)

/-- Every processed candidate ends up in the updated cache's headlines. -/
theorem filter_new_mem_cache (ts : Nat → String) (items : List String)
    (cache : List CacheEntry) (k : Nat) :
    ∀ x ∈ items, x ∈ cacheHeadlines (filter_new ts items cache k).2 := by
  induction items generalizing cache k with
  | nil => simp
  | cons item rest ih =>
    intro x hx
    by_cases h : item ∈ cacheHeadlines cache
    · rw [filter_new_cons_mem ts item rest cache k h]
      rcases List.mem_cons.mp hx with hxi | hx'
      · exact filter_new_cache_mono ts rest cache (k + 1) x (hxi ▸ h)
      · exact ih cache (k + 1) x hx'
    · rw [filter_new_cons_new ts item rest cache k h]
      rcases List.mem_cons.mp hx with hxi | hx'
      · have hmem : x ∈ cacheHeadlines (cache ++ [⟨item, ts k⟩]) := by
          simp [cacheHeadlines, hxi]
        exact filter_new_cache_mono ts rest (cache ++ [⟨item, ts k⟩]) (k + 1) x hmem
      · exact ih (cache ++ [⟨item, ts k⟩]) (k + 1) x hx'

/-- If every candidate is already cached, nothing is new and the cache is
unchanged. -/
theorem filter_new_all_cached (ts : Nat → String) (items : List String)
    (cache : List CacheEntry) (k : Nat)
    (h : ∀ x ∈ items, x ∈ cacheHeadlines cache) :
    filter_new ts items cache k = ([], cache) := by
  induction items generalizing k with
  | nil => rfl
  | cons item rest ih =>
    rw [filter_new_cons_mem ts item rest cache k (h item (by simp))]
    exact ih (k + 1) (fun x hx => h x (by simp [hx]))

/-- Both `new_items` and the headline sequence of the updated cache depend only on
the headline sequence of the input cache (never on timestamps or the loop
counter). -/
theorem filter_new_headline_congr (ts1 ts2 : Nat → String) (items : List String)
    (c1 c2 : List CacheEntry) (k1 k2 : Nat)
    (h : cacheHeadlines c1 = cacheHeadlines c2) :
    (filter_new ts1 items c1 k1).1 = (filter_new ts2 items c2 k2).1 ∧
    cacheHeadlines (filter_new ts1 items c1 k1).2 =
      cacheHeadlines (filter_new ts2 items c2 k2).2 := by
  induction items generalizing c1 c2 k1 k2 with
  | nil => simpa [filter_new]
  | cons item rest ih =>
    by_cases hm : item ∈ cacheHeadlines c1
    · rw [filter_new_cons_mem ts1 item rest c1 k1 hm,
        filter_new_cons_mem ts2 item rest c2 k2 (h ▸ hm)]
      exact ih c1 c2 (k1 + 1) (k2 + 1) h
    · rw [filter_new_cons_new ts1 item rest c1 k1 hm,
        filter_new_cons_new ts2 item rest c2 k2 (h ▸ hm)]
      have h' : cacheHeadlines (c1 ++ [⟨item, ts1 k1⟩]) =
          cacheHeadlines (c2 ++ [⟨item, ts2 k2⟩]) := by
        simp [cacheHeadlines] at h ⊢
        exact h
      obtain ⟨e1, e2⟩ := ih (c1 ++ [⟨item, ts1 k1⟩]) (c2 ++ [⟨item, ts2 k2⟩])
        (k1 + 1) (k2 + 1) h'
      exact ⟨by simp [e1], e2⟩

/-- Claim C1: Dedup idempotence. For every cache `C`, candidate list `L` and
timestamp oracles, if the first call `filter_new(L, C)` yields updated cache
`C'`, then the second call `filter_new(L, C')` returns an empty `new_items`
list. -/
theorem C1_dedup_idempotent (ts1 ts2 : Nat → String) (items : List String)
    (cache : List CacheEntry) (k1 k2 : Nat) :
    (filter_new ts2 items (filter_new ts1 items cache k1).2 k2).1 = [] := by
  have h := filter_new_mem_cache ts1 items cache k1
  rw [filter_new_all_cached ts2 items (filter_new ts1 items cache k1).2 k2 h]

/-- Claim C3: Determinism of dedup. Two invocations with the same cache
headlines and the same candidate list (regardless of the timestamp oracle or
loop counter) return equal `new_items` lists and identically grown cache
headline sequences; and a candidate is dropped exactly when some cache entry's
`headline` field is string-equal to it (no normalization). -/
theorem C3_dedup_deterministic (ts1 ts2 : Nat → String) (items : List String)
    (cache : List CacheEntry) (k1 k2 : Nat) :
    ((filter_new ts1 items cache k1).1 = (filter_new ts2 items cache k2).1 ∧
      cacheHeadlines (filter_new ts1 items cache k1).2 =
        cacheHeadlines (filter_new ts2 items cache k2).2) ∧
    (∀ item : String, (filter_new ts1 [item] cache k1).1 =
      if item ∈ cacheHeadlines cache then [] else [item]) := by
  refine ⟨filter_new_headline_congr ts1 ts2 items cache cache k1 k2 rfl, ?_⟩
  intro item
  by_cases hm : item ∈ cacheHeadlines cache
  · rw [filter_new_cons_mem ts1 item [] cache k1 hm, if_pos hm]
    rfl
  · rw [filter_new_cons_new ts1 item [] cache k1 hm, if_neg hm]
    rfl

/-- Claim C4: Cache growth equation. For every cache `C` and candidate list `L`,
`len(updated_cache) = len(C) + len(new_items)`. -/
theorem C4_cache_growth (ts : Nat → String) (items : List String)
    (cache : List CacheEntry) (k : Nat) :
    (filter_new ts items cache k).2.length =
      cache.length + (filter_new ts items cache k).1.length := by
  obtain ⟨tail, h1, h2⟩ := filter_new_frame ts items cache k
  rw [h1, List.length_append]
  congr 1
  rw [← h2, List.length_map]

/-- Claim C5: Order preservation. `new_items` is a subsequence of the candidate
list `L` (preserving relative order), and the only candidates omitted are
duplicates: any candidate not in `new_items` was already present among the
input cache's headlines. -/
theorem C5_order_preservation (ts : Nat → String) (items : List String)
    (cache : List CacheEntry) (k : Nat) :
    List.Sublist (filter_new ts items cache k).1 items ∧
    ∀ x ∈ items, x ∈ (filter_new ts items cache k).1 ∨ x ∈ cacheHeadlines cache := by
  induction items generalizing cache k with
  | nil => simp [filter_new]
  | cons item rest ih =>
    by_cases hm : item ∈ cacheHeadlines cache
    · rw [filter_new_cons_mem ts item rest cache k hm]
      obtain ⟨hs, hd⟩ := ih cache (k + 1)
      refine ⟨List.Sublist.cons item hs, ?_⟩
      intro x hx
      rcases List.mem_cons.mp hx with hxi | hx'
      · exact Or.inr (hxi ▸ hm)
      · exact hd x hx'
    · rw [filter_new_cons_new ts item rest cache k hm]
      obtain ⟨hs, hd⟩ := ih (cache ++ [⟨item, ts k⟩]) (k + 1)
      refine ⟨List.Sublist.cons₂ item hs, ?_⟩
      intro x hx
      rcases List.mem_cons.mp hx with hxi | hx'
      · exact Or.inl (by simp [hxi])
      · rcases hd x hx' with hin | hcad
        · exact Or.inl (List.mem_cons_of_mem item hin)
        · simp only [cacheHeadlines, List.map_append, List.mem_append] at hcad
          rcases hcad with hc | hi
          · exact Or.inr hc
          · simp at hi
            exact Or.inl (by simp [hi])

/-- Witness for C5 at a concrete input: with a cache already holding "B",
the call on ["A", "B"] returns a subsequence of the input, and the omitted
candidate "B" was already among the cache's headlines. -/
theorem C5_order_preservation_witness :
    List.Sublist (filter_new (fun _ => "t") ["A", "B"]
      [{ headline := "B", timestamp := "t0" }] 0).1 ["A", "B"] ∧
    ("B" ∈ (filter_new (fun _ => "t") ["A", "B"]
        [{ headline := "B", timestamp := "t0" }] 0).1 ∨
      "B" ∈ cacheHeadlines [{ headline := "B", timestamp := "t0" }]) := by
  refine ⟨(C5_order_preservation (fun _ => "t") ["A", "B"]
    [{ headline := "B", timestamp := "t0" }] 0).1, ?_⟩
  exact (C5_order_preservation (fun _ => "t") ["A", "B"]
    [{ headline := "B", timestamp := "t0" }] 0).2 "B" (by decide)

/-- Claim C9: Cache frame property. The updated cache returned by `filter_new`
is exactly the input cache (unchanged, in order) followed by the newly
appended entries, whose headlines are exactly `new_items`; no entry is
removed, modified or reordered. -/
theorem C9_cache_frame (ts : Nat → String) (items : List String)
    (cache : List CacheEntry) (k : Nat) :
    ∃ tail : List CacheEntry,
      (filter_new ts items cache k).2 = cache ++ tail ∧
      tail.map (·.headline) = (filter_new ts items cache k).1 :=
  filter_new_frame ts items cache k

/-- Python `str.strip()`: drop whitespace from both ends. -/
def pyStrip (s : String) : String :=
  ⟨((s.data.dropWhile Char.isWhitespace).reverse.dropWhile Char.isWhitespace).reverse⟩

/-- Python `str.lower()`: lowercase every character. -/
def pyLower (s : String) : String :=
  ⟨s.data.map Char.toLower⟩

/-- Python substring test `needle in hay` on strings. -/
def strContains (hay needle : String) : Bool :=
  (List.range (hay.length + 1)).any fun i => needle.data.isPrefixOf (hay.data.drop i)

/--
Model of `analyze_with_ai(headlines)` from `src/main.py` lines 58-75:

    meaningful = []
    for hl in headlines:
        try:
            ... response = openai.ChatCompletion.create(...)
            summary = response.choices[0].message["content"].strip()
            if "ignore" not in summary.lower():
                meaningful.append(summary)
        except Exception as e:
            logging.error(f"AI error: ...")
    return meaningful

`ai hl` models the external text-generation call for headline `hl`:
`.ok resp` is the response content, `.error e` any raised exception.
-/
def analyze_with_ai (ai : String → Except String String) : List String → List String
  | [] => []
  | hl :: rest =>
    match ai hl with
    | .error _ => analyze_with_ai ai rest
    | .ok resp =>
      let summary := pyStrip resp
      if strContains (pyLower summary) "ignore" then
        analyze_with_ai ai rest
      else
        summary :: analyze_with_ai ai rest

/-- Claim C6: Summarizer filtering and order. `analyze_with_ai` equals the
order-preserving `filterMap` over the input headlines that drops a headline
when its call fails or when its trimmed summary contains "ignore"
case-insensitively, and keeps the trimmed summary otherwise; hence a
per-headline failure skips exactly that headline and the output order matches
the input order minus dropped and failed ones. -/
theorem C6_summarizer_filter_order (ai : String → Except String String)
    (headlines : List String) :
    analyze_with_ai ai headlines =
      headlines.filterMap fun hl =>
        match ai hl with
        | .error _ => none
        | .ok resp =>
          if strContains (pyLower (pyStrip resp)) "ignore" then none
          else some (pyStrip resp) := by
  induction headlines with
  | nil => rfl
  | cons hl rest ih =>
    cases hai : ai hl with
    | error e => simp [analyze_with_ai, hai, ih]
    | ok resp =>
      by_cases hig : strContains (pyLower (pyStrip resp)) "ignore"
      · simp [analyze_with_ai, hai, hig, ih]
      · simp [analyze_with_ai, hai, hig, ih]

/-- A log line, as written by the `logging` module. -/
inductive LogEvent
  | info (msg : String)
  | error (msg : String)
deriving DecidableEq, Repr

/-- An HTTP response as seen by `requests.get`. -/
structure HttpResponse where
  status : Nat
  body : String
deriving DecidableEq, Repr

/-- Model of `resp.raise_for_status()`: raises `HTTPError` exactly for status codes in
[400, 600). -/
def raise_for_status (resp : HttpResponse) : Except String Unit :=
  if 400 ≤ resp.status ∧ resp.status < 600 then
    .error ("HTTP error " ++ toString resp.status)
  else
    .ok ()

/-- Observable outcome of one `fetch_site` call: the returned headlines, the
log lines written, and how many HTTP GET requests were issued. -/
structure FetchResult where
  headlines : List String
  logs : List LogEvent
  httpCalls : Nat
deriving DecidableEq, Repr

/--
Model of `fetch_site(url, selector="h2")` from `src/main.py` lines 47-56:

    try:
        resp = requests.get(url, timeout=10)
        resp.raise_for_status()
        soup = BeautifulSoup(resp.text, "html.parser")
        return [el.get_text(strip=True) for el in soup.select(selector)]
    except Exception as e:
        logging.error(f"Error fetching ...")
        return []

`http` models the single `requests.get` call (`.error` = network error);
`select body sel` models parsing `body` and selecting `sel` (`.error` = parse
error), returning the raw element texts, which are then stripped
(`get_text(strip=True)`).
-/
def fetch_site (http : Except String HttpResponse)
    (select : String → String → Except String (List String))
    (url : String) (selector : String := "h2") : FetchResult :=
  let attempt : Except String (List String) :=
    match http with
    | .error e => .error e
    | .ok resp =>
      match raise_for_status resp with
      | .error e => .error e
      | .ok _ =>
        match select resp.body selector with
        | .error e => .error e
        | .ok els => .ok (els.map pyStrip)
  match attempt with
  | .ok texts => { headlines := texts, logs := [], httpCalls := 1 }
  | .error e =>
      { headlines := [],
        logs := [.error ("Error fetching " ++ url ++ ": " ++ e)],
        httpCalls := 1 }

/-- Claim C7: Fetcher failure recovery. `fetch_site` always issues exactly one
HTTP request (no retry); on a network error, on an HTTP error status
(400-599), or on a parse/select error it logs one error line and returns an
empty headline sequence — the failure never propagates to the caller. -/
theorem C7_fetch_error_recovery (http : Except String HttpResponse)
    (select : String → String → Except String (List String))
    (url selector : String) :
    (fetch_site http select url selector).httpCalls = 1 ∧
    (∀ e, http = .error e →
      fetch_site http select url selector =
        { headlines := [],
          logs := [.error ("Error fetching " ++ url ++ ": " ++ e)],
          httpCalls := 1 }) ∧
    (∀ resp, http = .ok resp → 400 ≤ resp.status → resp.status < 600 →
      fetch_site http select url selector =
        { headlines := [],
          logs := [.error ("Error fetching " ++ url ++ ": HTTP error " ++
            toString resp.status)],
          httpCalls := 1 }) ∧
    (∀ resp e, http = .ok resp → ¬(400 ≤ resp.status ∧ resp.status < 600) →
      select resp.body selector = .error e →
      fetch_site http select url selector =
        { headlines := [],
          logs := [.error ("Error fetching " ++ url ++ ": " ++ e)],
          httpCalls := 1 }) := by
  refine ⟨?_, ?_, ?_, ?_⟩
  · unfold fetch_site
    cases http with
    | error e => rfl
    | ok resp =>
      by_cases hs : 400 ≤ resp.status ∧ resp.status < 600
      · simp [raise_for_status, hs]
      · cases hsel : select resp.body selector <;>
          simp [raise_for_status, hs, hsel]
  · rintro e rfl
    rfl
  · rintro resp rfl h1 h2
    unfold fetch_site
    have hjoin : (": " : String) ++ ("HTTP error " ++ toString resp.status) =
        ": HTTP error " ++ toString resp.status := by
      rw [← String.append_assoc]
      congr 1
    simp [raise_for_status, h1, h2, String.append_assoc, hjoin]
  · rintro resp e rfl hs hsel
    unfold fetch_site
    simp [raise_for_status, hs, hsel]

/-- Witness for C7 at concrete inputs: a network failure and an HTTP 404. -/
theorem C7_fetch_error_recovery_witness :
    (fetch_site (.error "connection refused")
        (fun _ _ => .ok ["x"]) "http://a" "h2" =
      { headlines := [],
        logs := [.error "Error fetching http://a: connection refused"],
        httpCalls := 1 }) ∧
    (fetch_site (.ok { status := 404, body := "<html></html>" })
        (fun _ _ => .ok ["x"]) "http://a" "h2" =
      { headlines := [],
        logs := [.error "Error fetching http://a: HTTP error 404"],
        httpCalls := 1 }) := by
  constructor
  · exact (C7_fetch_error_recovery (.error "connection refused")
      (fun _ _ => .ok ["x"]) "http://a" "h2").2.1 "connection refused" rfl
  · exact (C7_fetch_error_recovery (.ok { status := 404, body := "<html></html>" })
      (fun _ _ => .ok ["x"]) "http://a" "h2").2.2.1
      { status := 404, body := "<html></html>" } rfl (by decide) (by decide)

/-- Observable events emitted by `send_whatsapp`: a delivery attempt
(`client.messages.create`), a log line, or a blocking `time.sleep`. -/
inductive NotifyEvent
  | sendAttempt
  | logInfo (msg : String)
  | logError (msg : String)
  | sleep (seconds : Nat)
deriving DecidableEq, Repr

/-- The single aggregate message body built by `send_whatsapp`:
a header line followed by one bullet line per update, in order. -/
def format_body (updates : List String) : String :=
  "🔔 Latest Updates:\n" ++ String.intercalate "\n" (updates.map fun u => "• " ++ u)

/--
The retry loop of `send_whatsapp` (`src/main.py` lines 94-106):

    for attempt in range(3):
        try:
            msg = client.messages.create(...)
            logging.info(f"WhatsApp message sent: ...")
            break
        except Exception as e:
            wait = 2 ** attempt
            logging.error(f"WhatsApp send failed (retrying in ...s): ...")
            time.sleep(wait)

`send attempt` models the Twilio call on that attempt: `.ok sid` is the
returned message SID, `.error e` a raised exception. `fuel` is the number of
loop iterations remaining.
-/
def failMsg (wait : Nat) (e : String) : String :=
  "WhatsApp send failed (retrying in " ++ toString wait ++ "s): " ++ e

def sendLoop (send : Nat → Except String String) : Nat → Nat → List NotifyEvent
  | _, 0 => []
  | attempt, Nat.succ fuel =>
    match send attempt with
    | .ok sid => [.sendAttempt, .logInfo ("WhatsApp message sent: " ++ sid)]
    | .error e =>
      let wait := 2 ^ attempt
      [.sendAttempt, .logError (failMsg wait e), .sleep wait] ++
        sendLoop send (attempt + 1) fuel

/-- Model of `send_whatsapp(updates)` from `src/main.py` lines 86-106: returns
immediately on an empty batch, otherwise runs the 3-iteration retry loop. -/
def send_whatsapp (send : Nat → Except String String)
    (updates : List String) : List NotifyEvent :=
  if updates.isEmpty then [] else sendLoop send 0 3

/-- Number of delivery attempts recorded in a notifier trace. -/
def sendAttemptCount (tr : List NotifyEvent) : Nat :=
  tr.countP fun e => match e with | .sendAttempt => true | _ => false

/-- The sleep durations recorded in a notifier trace, in order. -/
def sleepsOf (tr : List NotifyEvent) : List Nat :=
  tr.filterMap fun e => match e with | .sleep n => some n | _ => none

theorem sendLoop_attempts_le (send : Nat → Except String String)
    (attempt fuel : Nat) :
    sendAttemptCount (sendLoop send attempt fuel) ≤ fuel := by
  induction fuel generalizing attempt with
  | zero => simp [sendLoop, sendAttemptCount]
  | succ n ih =>
    cases h : send attempt with
    | ok sid => simp [sendLoop, h, sendAttemptCount, List.countP_cons]
    | error e =>
      have hrec := ih (attempt + 1)
      simp only [sendAttemptCount] at hrec ⊢
      simp [sendLoop, h, List.countP_cons, List.countP_append]
      omega

/-- Claim C2: Notifier retry bound and backoff. For a non-empty batch:
at most 3 delivery attempts are made; if the first `k` attempts fail and
attempt `k` (k < 3) succeeds, the trace is exactly `k` failed attempts each
followed by its error log and a sleep of `2^attempt` seconds, then a
successful attempt whose provider SID is logged as the final event — so waits
occur only after failures and success stops the loop; if all 3 attempts fail,
the trace is exactly 3 attempts with sleeps 1s, 2s, 4s in that order, the
final failure is logged, and the function still returns (a trace exists;
delivery failure is not fatal). -/
theorem C2_notifier_retry (send : Nat → Except String String)
    (updates : List String) (hne : updates ≠ []) :
    sendAttemptCount (send_whatsapp send updates) ≤ 3 ∧
    (∀ e0 e1 e2, send 0 = .error e0 → send 1 = .error e1 → send 2 = .error e2 →
      send_whatsapp send updates =
        [.sendAttempt, .logError (failMsg 1 e0), .sleep 1,
          .sendAttempt, .logError (failMsg 2 e1), .sleep 2,
          .sendAttempt, .logError (failMsg 4 e2), .sleep 4]) ∧
    (∀ k sid, k < 3 → (∀ i, i < k → ∃ e, send i = .error e) →
      send k = .ok sid →
      sendAttemptCount (send_whatsapp send updates) = k + 1 ∧
      sleepsOf (send_whatsapp send updates) = (List.range k).map (2 ^ ·) ∧
      (send_whatsapp send updates).getLast? =
        some (.logInfo ("WhatsApp message sent: " ++ sid))) := by
  have hnotempty : updates.isEmpty = false := by
    cases updates with
    | nil => exact absurd rfl hne
    | cons a l => rfl
  refine ⟨?_, ?_, ?_⟩
  · rw [send_whatsapp, hnotempty]
    simpa using sendLoop_attempts_le send 0 3
  · intro e0 e1 e2 h0 h1 h2
    rw [send_whatsapp, hnotempty]
    simp [sendLoop, h0, h1, h2]
  · intro k sid hk hfail hok
    rw [send_whatsapp, hnotempty]
    simp only [Bool.false_eq_true, if_false]
    interval_cases k
    · simp [sendLoop, hok, sendAttemptCount, sleepsOf]
    · obtain ⟨e0, h0⟩ := hfail 0 (by norm_num)
      simp [sendLoop, h0, hok, sendAttemptCount, sleepsOf, List.range_succ]
    · obtain ⟨e0, h0⟩ := hfail 0 (by norm_num)
      obtain ⟨e1, h1⟩ := hfail 1 (by norm_num)
      simp [sendLoop, h0, h1, hok, sendAttemptCount, sleepsOf, List.range_succ]

/-- Witness for C2: a concrete notifier run where attempts 0 and 1 fail and
attempt 2 succeeds makes 3 attempts, sleeps 1s then 2s, and ends by logging
the provider SID. -/
theorem C2_notifier_retry_witness :
    sendAttemptCount (send_whatsapp
        (fun i => if i < 2 then .error "timeout" else .ok "SM123")
        ["update one"]) ≤ 3 ∧
    sendAttemptCount (send_whatsapp
        (fun i => if i < 2 then .error "timeout" else .ok "SM123")
        ["update one"]) = 3 ∧
    sleepsOf (send_whatsapp
        (fun i => if i < 2 then .error "timeout" else .ok "SM123")
        ["update one"]) = [1, 2] ∧
    (send_whatsapp (fun i => if i < 2 then .error "timeout" else .ok "SM123")
        ["update one"]).getLast? =
      some (.logInfo ("WhatsApp message sent: " ++ "SM123")) := by
  have h := C2_notifier_retry
    (fun i => if i < 2 then .error "timeout" else .ok "SM123")
    ["update one"] (by simp)
  refine ⟨h.1, ?_⟩
  have h3 := h.2.2 2 "SM123" (by norm_num)
    (fun i hi => ⟨"timeout", by simp [hi]⟩) (by simp)
  refine ⟨h3.1, ?_, h3.2.2⟩
  rw [h3.2.1]
  decide

/-- A configured site entry: `{"url": ..., "selector": ...}` with the
selector already defaulted to "h2" when absent (`site.get("selector", "h2")`). -/
structure Site where
  url : String
  selector : String
deriving DecidableEq, Repr

/-- The external world as seen by one `agent_loop` run: the loaded config and
cache, and per-site-index oracles for the HTTP call, the HTML selection, the
text-generation service, and the timestamps drawn during dedup. -/
structure Env where
  config : List Site
  cache0 : List CacheEntry
  http : Nat → Except String HttpResponse
  select : Nat → String → String → Except String (List String)
  ai : Nat → String → Except String String
  ts : Nat → Nat → String

/-- One iteration of the site loop in `agent_loop` (`src/main.py` lines
114-118): fetch the site, summarize, and dedup-filter against the working
cache; returns `(new_items, cache)`. -/
def siteStep (env : Env) (i : Nat) (site : Site)
    (cache : List CacheEntry) : List String × List CacheEntry :=
  filter_new (env.ts i)
    (analyze_with_ai (env.ai i)
      (fetch_site (env.http i) (env.select i) site.url site.selector).headlines)
    cache 0

/-- The whole site loop: threads the working cache through the sites in
config order and accumulates `all_updates` by `extend` (concatenation). -/
def agentSites (env : Env) : List (Nat × Site) → List CacheEntry →
    List String × List CacheEntry
  | [], cache => ([], cache)
  | (i, site) :: rest, cache =>
    let r := siteStep env i site cache
    let rr := agentSites env rest r.2
    (r.1 ++ rr.1, rr.2)

/-- Orchestrator-level effects of one `agent_loop` run. -/
inductive RunEffect
  | logInfo (msg : String)
  | saveCache (cache : List CacheEntry)
  | notify (updates : List String)
deriving DecidableEq, Repr

/-- Whether a run effect is an invocation of the Notifier. -/
def isNotifyCall (e : RunEffect) : Bool :=
  match e with
  | .notify _ => true
  | _ => false

/--
Model of `agent_loop()` from `src/main.py` lines 108-122: log the start, process every
configured site in order threading the cache, then `save_cache(cache)`
followed by `send_whatsapp(all_updates)`. Returns the orchestrator-level
effect trace.
-/
def agent_loop (env : Env) : List RunEffect :=
  let r := agentSites env env.config.enum env.cache0
  [.logInfo "Agent loop started", .saveCache r.2, .notify r.1]

/-- Claim C8: Orchestrator sequencing. Every completed `agent_loop` run emits
exactly one Notifier invocation; the trace is the start log, then the save of
the final threaded cache, then the single notify carrying the full
accumulated batch — so the cache is persisted first and the Notifier is
called exactly once with the batch from all sites. -/
theorem C8_orchestrator_sequencing (env : Env) :
    agent_loop env =
      [.logInfo "Agent loop started",
        .saveCache (agentSites env env.config.enum env.cache0).2,
        .notify (agentSites env env.config.enum env.cache0).1] ∧
    (agent_loop env).countP isNotifyCall = 1 := by
  exact ⟨rfl, rfl⟩

/-- The `new_items` of one `filter_new` call are mutually distinct and disjoint
from the input cache's headlines. -/
theorem filter_new_nodup_disjoint (ts : Nat → String) (items : List String)
    (cache : List CacheEntry) (k : Nat) :
    (filter_new ts items cache k).1.Nodup ∧
    ∀ x ∈ (filter_new ts items cache k).1, x ∉ cacheHeadlines cache := by
  induction items generalizing cache k with
  | nil => simp [filter_new]
  | cons item rest ih =>
    by_cases hm : item ∈ cacheHeadlines cache
    · rw [filter_new_cons_mem ts item rest cache k hm]
      exact ih cache (k + 1)
    · rw [filter_new_cons_new ts item rest cache k hm]
      obtain ⟨hnd, hdisj⟩ := ih (cache ++ [⟨item, ts k⟩]) (k + 1)
      constructor
      · refine List.nodup_cons.mpr ⟨?_, hnd⟩
        intro hmem
        exact hdisj item hmem (by simp [cacheHeadlines])
      · intro x hx
        rcases List.mem_cons.mp hx with hxi | hx'
        · exact hxi ▸ hm
        · intro hxc
          refine hdisj x hx' ?_
          simp only [cacheHeadlines, List.map_append, List.mem_append]
          exact Or.inl (by simpa [cacheHeadlines] using hxc)

/-- The site loop only appends to the cache; the appended headlines are
exactly the accumulated batch. -/
theorem agentSites_frame (env : Env) (l : List (Nat × Site))
    (cache : List CacheEntry) :
    ∃ tail : List CacheEntry,
      (agentSites env l cache).2 = cache ++ tail ∧
      tail.map (·.headline) = (agentSites env l cache).1 := by
  induction l generalizing cache with
  | nil => exact ⟨[], by simp [agentSites]⟩
  | cons p rest ih =>
    obtain ⟨i, site⟩ := p
    obtain ⟨t1, e1, f1⟩ := filter_new_frame (env.ts i)
      (analyze_with_ai (env.ai i)
        (fetch_site (env.http i) (env.select i) site.url site.selector).headlines)
      cache 0
    obtain ⟨t2, e2, f2⟩ := ih (siteStep env i site cache).2
    refine ⟨t1 ++ t2, ?_, ?_⟩
    · simp only [agentSites]
      rw [e2, show (siteStep env i site cache).2 = cache ++ t1 from e1,
        List.append_assoc]
    · simp only [agentSites, List.map_append, f2]
      rw [show List.map (fun c => c.headline) t1 =
        (siteStep env i site cache).1 from f1]

/-- The accumulated batch of the site loop has no duplicates and is disjoint
from the initial cache's headlines. -/
theorem agentSites_nodup_disjoint (env : Env) (l : List (Nat × Site))
    (cache : List CacheEntry) :
    (agentSites env l cache).1.Nodup ∧
    ∀ x ∈ (agentSites env l cache).1, x ∉ cacheHeadlines cache := by
  induction l generalizing cache with
  | nil => simp [agentSites]
  | cons p rest ih =>
    obtain ⟨i, site⟩ := p
    obtain ⟨hnd1, hdisj1⟩ := filter_new_nodup_disjoint (env.ts i)
      (analyze_with_ai (env.ai i)
        (fetch_site (env.http i) (env.select i) site.url site.selector).headlines)
      cache 0
    obtain ⟨hnd2, hdisj2⟩ := ih (siteStep env i site cache).2
    have hsub : ∀ x ∈ (siteStep env i site cache).1,
        x ∈ cacheHeadlines (siteStep env i site cache).2 := by
      intro x hx
      obtain ⟨t1, e1, f1⟩ := filter_new_frame (env.ts i)
        (analyze_with_ai (env.ai i)
          (fetch_site (env.http i) (env.select i) site.url site.selector).headlines)
        cache 0
      rw [show (siteStep env i site cache).2 = cache ++ t1 from e1]
      simp only [cacheHeadlines, List.map_append, List.mem_append]
      right
      rw [show List.map (fun c => c.headline) t1 =
        (siteStep env i site cache).1 from f1]
      exact hx
    have hmono : ∀ x ∈ cacheHeadlines cache,
        x ∈ cacheHeadlines (siteStep env i site cache).2 :=
      filter_new_cache_mono (env.ts i)
        (analyze_with_ai (env.ai i)
          (fetch_site (env.http i) (env.select i) site.url site.selector).headlines)
        cache 0
    constructor
    · simp only [agentSites]
      refine List.Nodup.append hnd1 hnd2 ?_
      intro x hx1 hx2
      exact hdisj2 x hx2 (hsub x hx1)
    · simp only [agentSites]
      intro x hx
      rcases List.mem_append.mp hx with hx1 | hx2
      · exact hdisj1 x hx1
      · intro hxc
        exact hdisj2 x hx2 (hmono x hxc)

/-- Claim C10: Implicit cross-site dedup within one run. The batch accumulated
across all sites of one `agent_loop` run contains no duplicate summary
strings, and the entries appended to the cache during the run have exactly
those (distinct) summaries as headlines — a summary produced by several sites
in one run enters the batch and the cache at most once. -/
theorem C10_cross_site_dedup (env : Env) :
    (agentSites env env.config.enum env.cache0).1.Nodup ∧
    ∃ tail : List CacheEntry,
      (agentSites env env.config.enum env.cache0).2 = env.cache0 ++ tail ∧
      tail.map (·.headline) = (agentSites env env.config.enum env.cache0).1 :=
  ⟨(agentSites_nodup_disjoint env env.config.enum env.cache0).1,
    agentSites_frame env env.config.enum env.cache0⟩
